import Mathlib

/-!
# Verification of the ProbablyFair shuffle module (`src/engine/probablyFair.ts`)

Shallow embedding of the provably-fair shuffle engine of
`Fused-Gaming/blackjack-premium` (source text embedded in
`src/BENCHMARK_RESULTS.md`, lines 359–686).

Modelling conventions:

* The platform digest primitive `crypto.subtle.digest('SHA-256', ·)` is not
  part of the repository; it is passed to every definition as a parameter
  `sha : HashFn` mapping the UTF-8 text that the source encodes with
  `TextEncoder` to the list of digest bytes.  A concrete executable SHA-256
  (`sha256str`, below) instantiates it where a real digest is needed.
* JavaScript arrays are `List (Option α)`: `none` is the `undefined` value,
  reads out of range yield `none` (`jsGet`), and writes at an index `≥`
  the length extend the array as JavaScript does (`jsSet`).
* Machine reals: the only real-number computation is
  `view[0] / 0xffffffff` followed by `Math.floor(rand * (i + 1))`.  Both
  operands are integers far below 2^53, so the computation is carried out
  exactly over `ℚ`; `Nat.floor ((w / D : ℚ) * (i+1)) = w * (i+1) / D`
  lets the operational model use exact natural division.
* A thrown exception / rejected promise is `Except.error`.
-/

namespace BlackjackPF

/-- Type of the external SHA-256 digest primitive: maps the hashed text to
its digest bytes.  Modelled from the spec: `crypto.subtle.digest` is a Web
Crypto platform primitive, not code of this repository. -/
abbrev HashFn := String → List Nat

/-- `0xffffffff = 2^32 - 1`, the divisor used by `seededRandom`
(`const value = view[0] / 0xffffffff`). -/
def UINT32_MAX : Nat := 4294967295

/-- First four digest bytes interpreted as an unsigned 32-bit integer,
little-endian, modelling `new Uint32Array(hashBuffer); view[0]` on a
little-endian platform.  Each byte is reduced mod 256 (the digest buffer
holds bytes). -/
def word32 (bytes : List Nat) : Nat :=
  bytes.getD 0 0 % 256 + 256 * (bytes.getD 1 0 % 256) +
    65536 * (bytes.getD 2 0 % 256) + 16777216 * (bytes.getD 3 0 % 256)

/-- `seedCounter.toString().padStart(10, '0')`: decimal representation of
the counter, left-padded with zeros to (at least) 10 characters. -/
def pad10 (n : Nat) : String :=
  String.mk (List.replicate (10 - (Nat.repr n).length) '0') ++ Nat.repr n

/-- One character of the case-insensitive hex grammar `[0-9a-fA-F]`. -/
def isHexChar (c : Char) : Bool :=
  ('0' ≤ c && c ≤ '9') || ('a' ≤ c && c ≤ 'f') || ('A' ≤ c && c ≤ 'F')

/-- The seed-format test `/^[a-f0-9]{64}$/i.test(seed)`. -/
def validSeedFormat (s : String) : Bool :=
  s.length == 64 && s.data.all isHexChar

/-- The message of the `Error` thrown on a seed failing the grammar. -/
def INVALID_SEED_MSG : String :=
  "Invalid seed format. Expected 64 hexadecimal characters."

/-- JavaScript array of `α` values: `none` models `undefined`. -/
abbrev JsArr (α : Type) := List (Option α)

/-- JavaScript array read `l[i]`: `undefined` when out of range. -/
def jsGet {α : Type} (l : JsArr α) (i : Nat) : Option α := l.getD i none

/-- JavaScript array write `l[i] = v`: in range it updates, at `i = length`
it appends, past the end it fills the gap with `undefined` holes. -/
def jsSet {α : Type} (l : JsArr α) (i : Nat) (v : Option α) : JsArr α :=
  if i < l.length then l.set i v
  else l ++ List.replicate (i - l.length) none ++ [v]

/-- The swap `[shuffled[i], shuffled[j]] = [shuffled[j], shuffled[i]]`:
the right-hand side is evaluated first, then `shuffled[i]` and
`shuffled[j]` are assigned in that order. -/
def jsSwap {α : Type} (l : JsArr α) (i j : Nat) : JsArr α :=
  jsSet (jsSet l i (jsGet l j)) j (jsGet l i)

/-- The 32-bit word of the `k`-th draw of `seededRandom`: first four bytes
of `SHA-256(seed + String(k).padStart(10, '0'))`. -/
def drawWord (sha : HashFn) (seed : String) (k : Nat) : Nat :=
  word32 (sha (seed ++ pad10 k))

/-- The Fisher-Yates loop
`for (let i = deckSize - 1; i > 0; i--) { ... }` of `seededShuffle`,
abstracted over the per-counter draw word `w`.  The first argument is the
current loop index `i`, the second the current value of `seedCounter`.
`j = Math.floor((w ctr / 0xffffffff) * (i + 1))`, computed exactly as
`w ctr * (i + 1) / UINT32_MAX` in natural division (see the floor lemma
`floor_draw_mul` below). -/
def fyLoop {α : Type} (w : Nat → Nat) : Nat → Nat → JsArr α → JsArr α
  | 0, _, l => l
  | i + 1, ctr, l =>
      fyLoop w i (ctr + 1) (jsSwap l (i + 1) (w ctr * (i + 2) / UINT32_MAX))

/-- `seededShuffle(deck, seed)`: validate the seed, copy the deck
(`[...deck]`, here `deck.map some`), run the Fisher-Yates loop with the
counter starting at 0. -/
def seededShuffle {α : Type} (sha : HashFn) (deck : List α) (seed : String) :
    Except String (JsArr α) :=
  if validSeedFormat seed then
    Except.ok (fyLoop (drawWord sha seed) (deck.length - 1) 0 (deck.map some))
  else Except.error INVALID_SEED_MSG

/-- `verifyShuffleWithSeed(originalDeck, shuffledDeck, seed)`: reproduce the
shuffle and compare `JSON.stringify` texts (equality of the arrays, since
stringification is injective on arrays of numbers and `null`s); any error
is caught and turned into `false`. -/
def verifyShuffleWithSeed {α : Type} [DecidableEq α] (sha : HashFn)
    (originalDeck : List α) (shuffledDeck : JsArr α) (seed : String) : Bool :=
  match seededShuffle sha originalDeck seed with
  | Except.ok r => decide (r = shuffledDeck)
  | Except.error _ => false

/-- Hex digit character used by `b.toString(16)`. -/
def hexDigit (n : Nat) : Char :=
  if n < 10 then Char.ofNat (48 + n) else Char.ofNat (87 + n)

/-- `b.toString(16).padStart(2, '0')` for a byte `b`. -/
def byteToHexStr (b : Nat) : String :=
  String.mk [hexDigit (b % 256 / 16), hexDigit (b % 16)]

/-- `bufferToHex(buffer)`: lowercase hex text of the bytes. -/
def bufferToHex (bytes : List Nat) : String :=
  String.join (bytes.map byteToHexStr)

/-- The digest text computed by `hashSeed(seed)`: SHA-256 of the seed text
exactly as passed, hex-encoded.  `hashSeed` performs no format validation. -/
def hashSeedStr (sha : HashFn) (seed : String) : String :=
  bufferToHex (sha seed)

/-- The `hashSeed` entry point.  Its promise can in principle reject
(`Except.error`), but the body contains no validation and no throw: it
always resolves with the digest text. -/
def hashSeed (sha : HashFn) (seed : String) : Except String String :=
  Except.ok (hashSeedStr sha seed)

/-- `s.toLowerCase()` on the seed alphabet. -/
def strLower (s : String) : String := String.mk (s.data.map Char.toLower)

/-- `generateSeed(providedSeed?)`.  `randomHex` models
`bufferToHex(crypto.getRandomValues(new Uint8Array(32)))`, the external
entropy drawn when no (or an empty, hence falsy) seed is provided.
A provided non-empty seed is validated and lowercased. -/
def generateSeed (randomHex : String) : Option String → Except String String
  | some s =>
      if s.length ≠ 0 then
        if validSeedFormat s then Except.ok (strLower s)
        else Except.error INVALID_SEED_MSG
      else Except.ok randomHex
  | none => Except.ok randomHex

/-- `interface ShuffleProof`. -/
structure ShuffleProof where
  seed : String
  seedHash : String
  timestamp : String
  version : String
deriving DecidableEq

/-- `interface VerificationResult`; the optional `error` field is `none`
when absent. -/
structure VerificationResult where
  valid : Bool
  error : Option String
  seedHashValid : Bool
  timestampValid : Bool
  versionSupported : Bool
deriving DecidableEq

/-- `const ALGORITHM_VERSION = 'PF-VL-1.0-A'`. -/
def ALGORITHM_VERSION : String := "PF-VL-1.0-A"

/-- `generateShuffleProof(seed?)`.  `randomHex` is the external entropy for
the no-seed path and `now` models `new Date().toISOString()`. -/
def generateShuffleProof (sha : HashFn) (randomHex now : String)
    (seed : Option String) : Except String ShuffleProof :=
  match generateSeed randomHex seed with
  | Except.error e => Except.error e
  | Except.ok finalSeed =>
      Except.ok
        { seed := finalSeed
          seedHash := hashSeedStr sha finalSeed
          timestamp := now
          version := ALGORITHM_VERSION }

/-- Error message of the seed-hash check of `verifyShuffleProof`. -/
def SEED_HASH_ERR : String := "Seed hash does not match provided seed"

/-- Error message of the timestamp check of `verifyShuffleProof`. -/
def TIMESTAMP_ERR : String := "Invalid timestamp format"

/-- Error message of the version check of `verifyShuffleProof`. -/
def versionErr (v : String) : String :=
  "Unsupported version: " ++ v ++ ". Expected: " ++ ALGORITHM_VERSION

/-- `verifyShuffleProof(proof)`.  `isTs` models
`!isNaN(new Date(t).getTime())`, the platform timestamp parser (modelled
from the spec: `Date` is a platform primitive).  The checks run in order
seed hash, timestamp, version, returning at the first failure; the
`details` flags of the later checks are still `false` then, because the
source initialises all three flags to `false` and only updates a flag when
its check runs.  The `catch` around `hashSeed` is dead code: `hashSeed`
never throws. -/
def verifyShuffleProof (sha : HashFn) (isTs : String → Bool)
    (proof : ShuffleProof) : VerificationResult :=
  if hashSeedStr sha proof.seed = proof.seedHash then
    if isTs proof.timestamp then
      if proof.version = ALGORITHM_VERSION then
        { valid := true, error := none,
          seedHashValid := true, timestampValid := true,
          versionSupported := true }
      else
        { valid := false, error := some (versionErr proof.version),
          seedHashValid := true, timestampValid := true,
          versionSupported := false }
    else
      { valid := false, error := some TIMESTAMP_ERR,
        seedHashValid := true, timestampValid := false,
        versionSupported := false }
  else
    { valid := false, error := some SEED_HASH_ERR,
      seedHashValid := false, timestampValid := false,
      versionSupported := false }

/-- `shuffleCardsWithSeed(cards, seed)`: shuffle the fresh index array
`[0, ..., cards.length - 1]` and re-index, `shuffledIndices.map(i => cards[i])`. -/
def shuffleCardsWithSeed {α : Type} (sha : HashFn) (cards : List α)
    (seed : String) : Except String (JsArr α) :=
  match seededShuffle sha (List.range cards.length) seed with
  | Except.ok si => Except.ok (si.map fun oi => oi.bind fun i => cards.get? i)
  | Except.error e => Except.error e

/-!
## Memory-instrumented variants (for the non-mutation claim)

The source operates on a copy: `const shuffled = [...deck]`, and every
write in the loop targets `shuffled`.  The instrumented state carries the
caller's array object as the first component and the working copy as the
second; the loop body writes only the second component, mirroring which
array object each source write targets.
-/

/-- Fisher-Yates loop over the instrumented state `(deck, shuffled)`:
writes go to the working copy only. -/
def fyLoopMem {α : Type} (w : Nat → Nat) :
    Nat → Nat → List α × JsArr α → List α × JsArr α
  | 0, _, m => m
  | i + 1, ctr, m =>
      fyLoopMem w i (ctr + 1)
        (m.1, jsSwap m.2 (i + 1) (w ctr * (i + 2) / UINT32_MAX))

/-- `seededShuffle` with the caller's array tracked through the call. -/
def seededShuffleMem {α : Type} (sha : HashFn) (deck : List α)
    (seed : String) : Except String (List α × JsArr α) :=
  if validSeedFormat seed then
    Except.ok
      (fyLoopMem (drawWord sha seed) (deck.length - 1) 0 (deck, deck.map some))
  else Except.error INVALID_SEED_MSG

/-- `shuffleCardsWithSeed` with the caller's `cards` array tracked: the
function only reads `cards` (in the final re-indexing map) and passes the
fresh `indices` array to `seededShuffle`. -/
def shuffleCardsWithSeedMem {α : Type} (sha : HashFn) (cards : List α)
    (seed : String) : Except String (List α × JsArr α) :=
  match seededShuffleMem sha (List.range cards.length) seed with
  | Except.ok m =>
      Except.ok (cards, m.2.map fun oi => oi.bind fun i => cards.get? i)
  | Except.error e => Except.error e

/-!
## Spec-style restatement of the generator and shuffle (for claim C3)

These definitions follow the words of the specification (§4.3/§4.4):
the `k`-th draw is a rational number `word / (2^32 - 1)` obtained from
`SHA-256(seed ++ pad10 k)`, and the loop computes `j = ⌊r * (i + 1)⌋`.
-/

/-- The `k`-th draw of the counter-mode bit generator as the real (here:
rational, the computation is exact) number `word32(digest) / (2^32 - 1)`. -/
def seededRandomVal (sha : HashFn) (seed : String) (k : Nat) : ℚ :=
  (drawWord sha seed k : ℚ) / (UINT32_MAX : ℚ)

/-- Fisher-Yates loop as the spec words it: at loop index `i` (first
argument), the draw with counter `k` (second argument) is consumed,
`j = ⌊r k * (i + 1)⌋`, positions `i` and `j` are swapped, and the counter
is incremented by one after the draw. -/
def specLoop {α : Type} (r : Nat → ℚ) : Nat → Nat → JsArr α → JsArr α
  | 0, _, l => l
  | i + 1, k, l =>
      specLoop r i (k + 1) (jsSwap l (i + 1) (Nat.floor (r k * (i + 2 : ℚ))))

/-- `seededShuffle` as the spec words it, consuming the rational draws of
`seededRandomVal` with the counter starting at 0. -/
def seededShuffleSpec {α : Type} (sha : HashFn) (deck : List α)
    (seed : String) : Except String (JsArr α) :=
  if validSeedFormat seed then
    Except.ok (specLoop (seededRandomVal sha seed) (deck.length - 1) 0 (deck.map some))
  else Except.error INVALID_SEED_MSG

/-!
## Executable SHA-256 (FIPS 180-4)

A concrete instantiation of the digest primitive, used to evaluate the
module on real digests.  Word arithmetic is `Nat` reduced mod `2^32`.
-/

/-- 32-bit right rotation. -/
def rotr32 (n x : Nat) : Nat := ((x >>> n) ||| (x <<< (32 - n))) % 4294967296

/-- FIPS 180-4 `Σ0`. -/
def bsig0 (x : Nat) : Nat := rotr32 2 x ^^^ rotr32 13 x ^^^ rotr32 22 x

/-- FIPS 180-4 `Σ1`. -/
def bsig1 (x : Nat) : Nat := rotr32 6 x ^^^ rotr32 11 x ^^^ rotr32 25 x

/-- FIPS 180-4 `σ0`. -/
def ssig0 (x : Nat) : Nat := rotr32 7 x ^^^ rotr32 18 x ^^^ (x >>> 3)

/-- FIPS 180-4 `σ1`. -/
def ssig1 (x : Nat) : Nat := rotr32 17 x ^^^ rotr32 19 x ^^^ (x >>> 10)

/-- FIPS 180-4 `Ch(x,y,z)`; `¬x` is `x ^^^ 0xffffffff` on 32-bit words. -/
def chFn (x y z : Nat) : Nat := (x &&& y) ^^^ ((x ^^^ 4294967295) &&& z)

/-- FIPS 180-4 `Maj(x,y,z)`. -/
def majFn (x y z : Nat) : Nat := (x &&& y) ^^^ (x &&& z) ^^^ (y &&& z)

/-- The 64 SHA-256 round constants. -/
def sha256K : List Nat :=
  [1116352408, 1899447441, 3049323471, 3921009573, 961987163,
   1508970993, 2453635748, 2870763221, 3624381080, 310598401,
   607225278, 1426881987, 1925078388, 2162078206, 2614888103,
   3248222580, 3835390401, 4022224774, 264347078, 604807628,
   770255983, 1249150122, 1555081692, 1996064986, 2554220882,
   2821834349, 2952996808, 3210313671, 3336571891, 3584528711,
   113926993, 338241895, 666307205, 773529912, 1294757372,
   1396182291, 1695183700, 1986661051, 2177026350, 2456956037,
   2730485921, 2820302411, 3259730800, 3345764771, 3516065817,
   3600352804, 4094571909, 275423344, 430227734, 506948616,
   659060556, 883997877, 958139571, 1322822218, 1537002063,
   1747873779, 1955562222, 2024104815, 2227730452, 2361852424,
   2428436474, 2756734187, 3204031479, 3329325298]

/-- The SHA-256 initial hash state. -/
def sha256H0 : List Nat :=
  [1779033703, 3144134277, 1013904242, 2773480762,
   1359893119, 2600822924, 528734635, 1541459225]

/-- Big-endian bytes of a 64-bit value. -/
def be8 (v : Nat) : List Nat :=
  [v >>> 56 % 256, v >>> 48 % 256, v >>> 40 % 256, v >>> 32 % 256,
   v >>> 24 % 256, v >>> 16 % 256, v >>> 8 % 256, v % 256]

/-- Big-endian bytes of a 32-bit word. -/
def be4 (v : Nat) : List Nat := [v >>> 24 % 256, v >>> 16 % 256, v >>> 8 % 256, v % 256]

/-- SHA-256 message padding: `0x80`, zeros to 56 mod 64, 8-byte bit length. -/
def sha256pad (msg : List Nat) : List Nat :=
  msg ++ [128] ++ List.replicate ((119 - msg.length % 64) % 64) 0 ++ be8 (8 * msg.length)

/-- Split into 64-byte blocks; the first argument is the block count. -/
def chunksAux : Nat → List Nat → List (List Nat)
  | 0, _ => []
  | n + 1, l => l.take 64 :: chunksAux n (l.drop 64)

/-- Split a padded message into its 64-byte blocks. -/
def chunks64 (l : List Nat) : List (List Nat) := chunksAux ((l.length + 63) / 64) l

/-- The 16 initial schedule words of a block (big-endian). -/
def initW (block : List Nat) : List Nat :=
  (List.range 16).map fun t =>
    16777216 * block.getD (4 * t) 0 + 65536 * block.getD (4 * t + 1) 0 +
      256 * block.getD (4 * t + 2) 0 + block.getD (4 * t + 3) 0

/-- Extend the message schedule by the given number of words. -/
def extendW : Nat → List Nat → List Nat
  | 0, w => w
  | n + 1, w =>
      extendW n (w ++ [(ssig1 (w.getD (w.length - 2) 0) + w.getD (w.length - 7) 0 +
        ssig0 (w.getD (w.length - 15) 0) + w.getD (w.length - 16) 0) % 4294967296])

/-- One SHA-256 compression round on the state `[a,b,c,d,e,f,g,h]`. -/
def sha256round (s : List Nat) (kt wt : Nat) : List Nat :=
  let a := s.getD 0 0
  let b := s.getD 1 0
  let c := s.getD 2 0
  let d := s.getD 3 0
  let e := s.getD 4 0
  let f := s.getD 5 0
  let g := s.getD 6 0
  let h := s.getD 7 0
  let t1 := (h + bsig1 e + chFn e f g + kt + wt) % 4294967296
  let t2 := (bsig0 a + majFn a b c) % 4294967296
  [(t1 + t2) % 4294967296, a, b, c, (d + t1) % 4294967296, e, f, g]

/-- Compress one 64-byte block into the hash state. -/
def compressBlock (h : List Nat) (block : List Nat) : List Nat :=
  let w := extendW 48 (initW block)
  let s := (sha256K.zip w).foldl (fun st kw => sha256round st kw.1 kw.2) h
  List.zipWith (fun x y => (x + y) % 4294967296) h s

/-- SHA-256 digest bytes of a byte sequence. -/
def sha256bytes (msg : List Nat) : List Nat :=
  ((chunks64 (sha256pad msg)).foldl compressBlock sha256H0).foldr
    (fun w acc => be4 w ++ acc) []

/-- SHA-256 digest of the UTF-8 encoding of an ASCII string (the texts the
module hashes — hex seeds and decimal counters — are all ASCII, where
UTF-8 bytes coincide with code points). -/
def sha256str (s : String) : List Nat := sha256bytes (s.data.map Char.toNat)

/-!
## Concrete fixtures for evaluations
-/

/-- A digest primitive returning all-`0xff` bytes: a conforming 32-byte
digest whose first 32-bit word is `2^32 - 1`.  Modelled from the spec: the
SHA-256 contract fixes only the digest length, so this is an admissible
digest value. -/
def shaFF : HashFn := fun _ => List.replicate 32 255

/-- A digest primitive returning all-zero bytes. -/
def shaZero : HashFn := fun _ => List.replicate 32 0

/-- A timestamp parser accepting everything (for witnesses). -/
def tsAlways : String → Bool := fun _ => true

/-- A timestamp parser rejecting everything (for witnesses). -/
def tsNever : String → Bool := fun _ => false

/-- A 64-hex seed: 64 `'a'` characters. -/
def seedA : String :=
  "aaaaaaaaaaaaaaaaaaaaaaaaaaaaaaaaaaaaaaaaaaaaaaaaaaaaaaaaaaaaaaaa"

/-- A 64-hex seed: 64 `'b'` characters. -/
def seedB : String :=
  "bbbbbbbbbbbbbbbbbbbbbbbbbbbbbbbbbbbbbbbbbbbbbbbbbbbbbbbbbbbbbbbb"

/-- The uppercase form of `seedB`: 64 `'B'` characters, accepted by the
case-insensitive seed grammar. -/
def seedBU : String :=
  "BBBBBBBBBBBBBBBBBBBBBBBBBBBBBBBBBBBBBBBBBBBBBBBBBBBBBBBBBBBBBBBB"

/-- Decidable equality for `Except` results (not provided by core). -/
instance decEqExcept {ε α : Type} [DecidableEq ε] [DecidableEq α] :
    DecidableEq (Except ε α) := fun x y =>
  match x, y with
  | Except.ok a, Except.ok b =>
      if h : a = b then isTrue (by rw [h])
      else isFalse (fun he => h (Except.ok.inj he))
  | Except.error a, Except.error b =>
      if h : a = b then isTrue (by rw [h])
      else isFalse (fun he => h (Except.error.inj he))
  | Except.ok _, Except.error _ => isFalse (fun he => Except.noConfusion he)
  | Except.error _, Except.ok _ => isFalse (fun he => Except.noConfusion he)

/-!
## Helper lemmas
-/

/-- Replacing the `m`-th element of `t` by `a` while moving the old value
to the front is a permutation of putting `a` in front. -/
theorem cons_set_perm {α : Type} (d a : α) :
    ∀ (t : List α) (m : Nat), m < t.length →
      List.Perm (t.getD m d :: t.set m a) (a :: t) := by
  intro t
  induction t with
  | nil => intro m h; simp at h
  | cons b t ih =>
    intro m h
    cases m with
    | zero => simpa using List.Perm.swap a b t
    | succ m =>
      have h2 : m < t.length := by simpa using h
      have step1 : List.Perm ((b :: t).getD (m + 1) d :: (b :: t).set (m + 1) a)
          (b :: (t.getD m d :: t.set m a)) := by
        simp only [List.getD_cons_succ, List.set_cons_succ]
        exact List.Perm.swap _ _ _
      have step2 : List.Perm (b :: (t.getD m d :: t.set m a)) (b :: a :: t) :=
        List.Perm.cons b (ih m h2)
      exact (step1.trans step2).trans (List.Perm.swap _ _ _)

/-- Swapping two in-range positions (as two `set`s of the old values) is a
permutation. -/
theorem set_set_getD_perm {α : Type} (d : α) :
    ∀ (l : List α) (i j : Nat), i < l.length → j < l.length →
      List.Perm ((l.set i (l.getD j d)).set j (l.getD i d)) l := by
  intro l
  induction l with
  | nil => intro i j hi; simp at hi
  | cons a t ih =>
    intro i j hi hj
    cases i with
    | zero =>
      cases j with
      | zero => simp
      | succ m =>
        have hm : m < t.length := by simpa using hj
        simpa using cons_set_perm d a t m hm
    | succ n =>
      have hn : n < t.length := by simpa using hi
      cases j with
      | zero =>
        simpa using cons_set_perm d a t n hn
      | succ m =>
        have hm : m < t.length := by simpa using hj
        simpa using List.Perm.cons a (ih n m hn hm)

/-- An in-range JavaScript write is `List.set`. -/
theorem jsSet_of_lt {α : Type} (l : JsArr α) (i : Nat) (v : Option α)
    (h : i < l.length) : jsSet l i v = l.set i v := by
  simp [jsSet, h]

/-- An in-range JavaScript swap is the two-`set` swap. -/
theorem jsSwap_eq_set_set {α : Type} (l : JsArr α) (i j : Nat)
    (hi : i < l.length) (hj : j < l.length) :
    jsSwap l i j = (l.set i (l.getD j none)).set j (l.getD i none) := by
  unfold jsSwap jsGet
  rw [jsSet_of_lt _ _ _ hi, jsSet_of_lt]
  simpa using hj

/-- An in-range JavaScript swap is a permutation. -/
theorem jsSwap_perm {α : Type} (l : JsArr α) (i j : Nat)
    (hi : i < l.length) (hj : j < l.length) :
    List.Perm (jsSwap l i j) l := by
  rw [jsSwap_eq_set_set l i j hi hj]
  exact set_set_getD_perm none l i j hi hj

/-- An in-range JavaScript swap preserves the length. -/
theorem jsSwap_length {α : Type} (l : JsArr α) (i j : Nat)
    (hi : i < l.length) (hj : j < l.length) :
    (jsSwap l i j).length = l.length := by
  rw [jsSwap_eq_set_set l i j hi hj]
  simp

/-- The swap index `j = w * (i + 1) / UINT32_MAX` is at most `i + 1` when
the draw word is at most `UINT32_MAX`. -/
theorem swap_index_le (w i : Nat) (hw : w ≤ UINT32_MAX) :
    w * (i + 1) / UINT32_MAX ≤ i + 1 := by
  have h1 : w * (i + 1) ≤ UINT32_MAX * (i + 1) :=
    Nat.mul_le_mul_right _ hw
  calc w * (i + 1) / UINT32_MAX ≤ UINT32_MAX * (i + 1) / UINT32_MAX :=
        Nat.div_le_div_right h1
    _ = i + 1 := by
        rw [Nat.mul_comm, Nat.mul_div_cancel]
        decide

/-- The swap index is at most `i` when the draw word is strictly below
`UINT32_MAX`. -/
theorem swap_index_lt (w i : Nat) (hw : w < UINT32_MAX) :
    w * (i + 1) / UINT32_MAX < i + 1 := by
  have hD : 0 < UINT32_MAX := by decide
  rw [Nat.div_lt_iff_lt_mul hD]
  calc w * (i + 1) < UINT32_MAX * (i + 1) :=
        Nat.mul_lt_mul_of_lt_of_le hw (Nat.le_refl _) (Nat.succ_pos _)
    _ = (i + 1) * UINT32_MAX := Nat.mul_comm _ _

/-- The draw word is always below `2^32` (it is built from four bytes). -/
theorem word32_lt (bytes : List Nat) : word32 bytes < 4294967296 := by
  unfold word32
  have h0 : bytes.getD 0 0 % 256 < 256 := Nat.mod_lt _ (by decide)
  have h1 : bytes.getD 1 0 % 256 < 256 := Nat.mod_lt _ (by decide)
  have h2 : bytes.getD 2 0 % 256 < 256 := Nat.mod_lt _ (by decide)
  have h3 : bytes.getD 3 0 % 256 < 256 := Nat.mod_lt _ (by decide)
  omega

/-- Hence every draw word is at most `UINT32_MAX = 2^32 - 1`. -/
theorem drawWord_le (sha : HashFn) (seed : String) (k : Nat) :
    drawWord sha seed k ≤ UINT32_MAX := by
  have h := word32_lt (sha (seed ++ pad10 k))
  unfold drawWord UINT32_MAX
  omega

/-- The Fisher-Yates loop started strictly below the last index is a
permutation (all its swaps are in range). -/
theorem fyLoop_perm {α : Type} (w : Nat → Nat) (hw : ∀ c, w c ≤ UINT32_MAX) :
    ∀ (v ctr : Nat) (l : JsArr α), v + 1 < l.length →
      List.Perm (fyLoop w v ctr l) l := by
  intro v
  induction v with
  | zero => intro ctr l _; exact List.Perm.refl l
  | succ v ih =>
    intro ctr l hlt
    have hi : v + 1 < l.length := Nat.lt_of_succ_lt hlt
    have hj : w ctr * (v + 2) / UINT32_MAX < l.length := by
      have h := swap_index_le (w ctr) (v + 1) (hw ctr)
      have h22 : v + 1 + 1 = v + 2 := by omega
      rw [h22] at h
      omega
    have hlen : (jsSwap l (v + 1) (w ctr * (v + 2) / UINT32_MAX)).length = l.length :=
      jsSwap_length l _ _ hi hj
    have hrec : List.Perm (fyLoop w v (ctr + 1)
        (jsSwap l (v + 1) (w ctr * (v + 2) / UINT32_MAX)))
        (jsSwap l (v + 1) (w ctr * (v + 2) / UINT32_MAX)) := by
      apply ih
      omega
    exact List.Perm.trans hrec (jsSwap_perm l _ _ hi hj)

/-- Guarded permutation property of `seededShuffle`: if the first draw word
is strictly below `2^32 - 1` (or the deck has at most one element, so that
no draw happens), the output is a permutation of the input.  The guard is
needed because the divisor of `seededRandom` is `0xffffffff`, not `2^32`:
at draw word `0xffffffff` the first iteration computes `j = i + 1` and
writes past the end of the array. -/
theorem seededShuffle_perm_of_first_draw_lt {α : Type} (sha : HashFn)
    (deck : List α) (seed : String)
    (hfirst : drawWord sha seed 0 < UINT32_MAX ∨ deck.length ≤ 1) :
    ∀ out, seededShuffle sha deck seed = Except.ok out →
      List.Perm out (deck.map some) := by
  intro out hout
  unfold seededShuffle at hout
  by_cases hv : validSeedFormat seed
  · simp only [hv, if_true, Except.ok.injEq] at hout
    subst hout
    rcases Nat.lt_or_ge deck.length 2 with hlen | hlen
    · have h0 : deck.length - 1 = 0 := by omega
      rw [h0]
      exact List.Perm.refl _
    · rcases hfirst with hfirst | hbad
      · have hlm : (deck.map some).length = deck.length := List.length_map _ _
        obtain ⟨v, hvv⟩ : ∃ v, deck.length - 1 = v + 1 := ⟨deck.length - 2, by omega⟩
        rw [hvv]
        have hi : v + 1 < (deck.map some).length := by omega
        have hj : drawWord sha seed 0 * (v + 2) / UINT32_MAX < (deck.map some).length := by
          have h := swap_index_lt (drawWord sha seed 0) (v + 1) hfirst
          have h22 : v + 1 + 1 = v + 2 := by omega
          rw [h22] at h
          omega
        have hlenswap : (jsSwap (deck.map some) (v + 1)
            (drawWord sha seed 0 * (v + 2) / UINT32_MAX)).length =
            (deck.map some).length :=
          jsSwap_length _ _ _ hi hj
        show List.Perm (fyLoop (drawWord sha seed) (v + 1) 0 (deck.map some)) _
        rw [fyLoop]
        have hrec : List.Perm
            (fyLoop (drawWord sha seed) v 1 (jsSwap (deck.map some) (v + 1)
              (drawWord sha seed 0 * (v + 2) / UINT32_MAX)))
            (jsSwap (deck.map some) (v + 1)
              (drawWord sha seed 0 * (v + 2) / UINT32_MAX)) := by
          apply fyLoop_perm _ (fun c => drawWord_le sha seed c)
          rw [hlenswap]
          omega
        exact List.Perm.trans hrec (jsSwap_perm _ _ _ hi hj)
      · omega
  · simp [hv] at hout

/-- Exact-arithmetic form of `Math.floor(rand * (i + 1))`: flooring the
rational `w / UINT32_MAX * (v + 2)` is natural division. -/
theorem floor_draw_mul (w v : Nat) :
    Nat.floor ((w : ℚ) / (UINT32_MAX : ℚ) * ((v : ℚ) + 2)) =
      w * (v + 2) / UINT32_MAX := by
  rw [div_mul_eq_mul_div]
  have hcast : (w : ℚ) * ((v : ℚ) + 2) = ((w * (v + 2) : ℕ) : ℚ) := by
    push_cast
    ring
  rw [hcast, Nat.floor_div_nat, Nat.floor_natCast]

/-- The spec-worded loop and the operational loop agree when the rational
draws are `w k / UINT32_MAX`. -/
theorem specLoop_eq_fyLoop {α : Type} (r : Nat → ℚ) (w : Nat → Nat)
    (hr : ∀ k, r k = (w k : ℚ) / (UINT32_MAX : ℚ)) :
    ∀ (v ctr : Nat) (l : JsArr α), specLoop r v ctr l = fyLoop w v ctr l := by
  intro v
  induction v with
  | zero => intro ctr l; rfl
  | succ v ih =>
    intro ctr l
    show specLoop r v (ctr + 1) _ = fyLoop w v (ctr + 1) _
    rw [hr ctr, floor_draw_mul]
    exact ih (ctr + 1) _

/-- The loop consumes exactly the counters `ctr, ..., ctr + v - 1`: two
draw-word streams agreeing there yield the same result. -/
theorem fyLoop_congr {α : Type} (w1 w2 : Nat → Nat) :
    ∀ (v ctr : Nat) (l : JsArr α),
      (∀ k, k < v → w1 (ctr + k) = w2 (ctr + k)) →
      fyLoop w1 v ctr l = fyLoop w2 v ctr l := by
  intro v
  induction v with
  | zero => intro ctr l _; rfl
  | succ v ih =>
    intro ctr l h
    show fyLoop w1 v (ctr + 1) _ = fyLoop w2 v (ctr + 1) _
    have h0 : w1 ctr = w2 ctr := by simpa using h 0 (Nat.succ_pos v)
    rw [h0]
    apply ih
    intro k hk
    have := h (k + 1) (by omega)
    have hadd : ctr + (k + 1) = ctr + 1 + k := by omega
    rw [hadd] at this
    exact this

/-- The instrumented loop never writes the caller's array. -/
theorem fyLoopMem_fst {α : Type} (w : Nat → Nat) :
    ∀ (v ctr : Nat) (m : List α × JsArr α), (fyLoopMem w v ctr m).1 = m.1 := by
  intro v
  induction v with
  | zero => intro ctr m; rfl
  | succ v ih => intro ctr m; exact ih (ctr + 1) _

/-- The working copy of the instrumented loop evolves exactly as the plain
loop. -/
theorem fyLoopMem_snd {α : Type} (w : Nat → Nat) :
    ∀ (v ctr : Nat) (m : List α × JsArr α),
      (fyLoopMem w v ctr m).2 = fyLoop w v ctr m.2 := by
  intro v
  induction v with
  | zero => intro ctr m; rfl
  | succ v ih => intro ctr m; exact ih (ctr + 1) _

/-- A valid seed has 64 characters; in particular it is non-empty. -/
theorem validSeedFormat_length {s : String} (h : validSeedFormat s = true) :
    s.length = 64 := by
  unfold validSeedFormat at h
  rw [Bool.and_eq_true, beq_iff_eq] at h
  exact h.1

/-!
## Claim theorems
-/

/-- C2: for every digest primitive, deck and seed, whenever
`seededShuffle(d, s)` succeeds with result `out`,
`verifyShuffleWithSeed(d, out, s)` returns `true` — the verifier reruns
the same deterministic shuffle and compares. -/
theorem c2_verification_roundtrip {α : Type} [DecidableEq α] (sha : HashFn)
    (d : List α) (s : String) (out : JsArr α)
    (h : seededShuffle sha d s = Except.ok out) :
    verifyShuffleWithSeed sha d out s = true := by
  unfold verifyShuffleWithSeed
  rw [h]
  simp

/-- C3: `seededShuffle` equals its specification restatement: the `k`-th
draw hashes `seed ++ pad10 k` (counter starting at 0, incremented by one
after every draw), takes the first four digest bytes as an unsigned 32-bit
integer, divides by `2^32 - 1`, and the loop runs `i` from `length - 1`
down to `1` swapping `i` with `⌊r * (i + 1)⌋`. -/
theorem c3_counter_mode_spec (α : Type) (sha : HashFn) (deck : List α)
    (seed : String) :
    seededShuffle sha deck seed = seededShuffleSpec sha deck seed ∧
    ∀ k, seededRandomVal sha seed k =
      (word32 (sha (seed ++ pad10 k)) : ℚ) / ((2 : ℚ) ^ 32 - 1) := by
  constructor
  · unfold seededShuffle seededShuffleSpec
    by_cases hv : validSeedFormat seed
    · simp only [hv, if_true]
      exact congrArg Except.ok
        (specLoop_eq_fyLoop _ _ (fun k => rfl) _ _ _).symm
    · simp [hv]
  · intro k
    unfold seededRandomVal drawWord UINT32_MAX
    norm_num

/-- C5 (amended): a provided non-empty string failing the grammar makes
`generateSeed` and `seededShuffle` fail with the format error, but
`hashSeed` performs no validation and always resolves with the digest of
whatever text it got. -/
theorem c5_format_errors_amended (sha : HashFn) (rh : String) (α : Type)
    (d : List α) (s : String) (h : validSeedFormat s = false) :
    (s.length ≠ 0 → generateSeed rh (some s) = Except.error INVALID_SEED_MSG) ∧
    seededShuffle sha d s = Except.error INVALID_SEED_MSG ∧
    hashSeed sha s = Except.ok (hashSeedStr sha s) := by
  refine ⟨?_, ?_, rfl⟩
  · intro hne
    simp [generateSeed, hne, h]
  · unfold seededShuffle
    simp [h]

/-- C6: `verifyShuffleWithSeed` is total (returns a boolean for all
inputs) and returns `false` both when the seed fails the grammar and, more
generally, whenever the internal reproduction errors. -/
theorem c6_verify_never_throws (α : Type) [DecidableEq α] (sha : HashFn)
    (orig : List α) (sd : JsArr α) (s : String) :
    (validSeedFormat s = false → verifyShuffleWithSeed sha orig sd s = false) ∧
    (∀ e, seededShuffle sha orig s = Except.error e →
      verifyShuffleWithSeed sha orig sd s = false) := by
  constructor
  · intro h
    unfold verifyShuffleWithSeed seededShuffle
    simp [h]
  · intro e he
    unfold verifyShuffleWithSeed
    rw [he]

/-- C7 (amended): the shuffle depends on the seed only through the digests
of `seed ++ pad10 k`, hashed exactly as passed: it agrees with the shuffle
of the lowercased seed precisely on the strength of those digests
agreeing.  (The source does not lowercase the seed before hashing, so for
the real SHA-256 an uppercase seed yields different digests and a
different permutation; see the counterexample.) -/
theorem c7_shuffle_depends_on_hashed_text {α : Type} (sha : HashFn)
    (d : List α) (s : String)
    (h1 : validSeedFormat s = true)
    (h2 : validSeedFormat (strLower s) = true)
    (h3 : ∀ k, k < d.length - 1 →
      sha (s ++ pad10 k) = sha (strLower s ++ pad10 k)) :
    seededShuffle sha d s = seededShuffle sha d (strLower s) := by
  unfold seededShuffle
  rw [h1, h2]
  simp only [if_true]
  refine congrArg Except.ok (fyLoop_congr _ _ _ 0 _ ?_)
  intro k hk
  unfold drawWord
  rw [Nat.zero_add, h3 k hk]

/-- The instrumented `seededShuffle` returns the caller's deck unchanged
and a working copy equal to the plain model's result. -/
theorem seededShuffleMem_ok {β : Type} (sha : HashFn) (s : String) :
    ∀ (deck : List β) (pr : List β × JsArr β),
      seededShuffleMem sha deck s = Except.ok pr →
      pr.1 = deck ∧ seededShuffle sha deck s = Except.ok pr.2 := by
  intro deck pr h
  unfold seededShuffleMem at h
  by_cases hv : validSeedFormat s
  · simp only [hv, if_true, Except.ok.injEq] at h
    subst h
    refine ⟨fyLoopMem_fst _ _ _ _, ?_⟩
    unfold seededShuffle
    simp only [hv, if_true]
    rw [fyLoopMem_snd]
  · simp [hv] at h

/-- C9: the caller's arrays are not mutated: in the instrumented model
(which records which array object each write of the source targets) the
caller's `deck` of `seededShuffle` and `cards` of `shuffleCardsWithSeed`
are returned unchanged, while the working copy computes exactly the plain
model's result. -/
theorem c9_non_mutation (α : Type) (sha : HashFn) (s : String) :
    (∀ (deck : List α) (pr : List α × JsArr α),
      seededShuffleMem sha deck s = Except.ok pr →
      pr.1 = deck ∧ seededShuffle sha deck s = Except.ok pr.2) ∧
    (∀ (cards : List α) (pr : List α × JsArr α),
      shuffleCardsWithSeedMem sha cards s = Except.ok pr →
      pr.1 = cards ∧ shuffleCardsWithSeed sha cards s = Except.ok pr.2) := by
  refine ⟨seededShuffleMem_ok sha s, ?_⟩
  intro cards pr h
  unfold shuffleCardsWithSeedMem at h
  cases hm : seededShuffleMem sha (List.range cards.length) s with
  | error e => rw [hm] at h; exact absurd h (by simp)
  | ok m =>
    rw [hm] at h
    simp only [Except.ok.injEq] at h
    subst h
    have hrel := seededShuffleMem_ok sha s (List.range cards.length) m hm
    refine ⟨rfl, ?_⟩
    unfold shuffleCardsWithSeed
    rw [hrel.2]

/-- C10: `verifyShuffleProof` checks seed hash, then timestamp, then
version, returning at the first failure with every later detail flag
reported `false` regardless of the later fields' actual validity. -/
theorem c10_first_failure_short_circuit (sha : HashFn) (isTs : String → Bool)
    (p : ShuffleProof) :
    (hashSeedStr sha p.seed ≠ p.seedHash →
      verifyShuffleProof sha isTs p =
        ⟨false, some SEED_HASH_ERR, false, false, false⟩) ∧
    (hashSeedStr sha p.seed = p.seedHash → isTs p.timestamp = false →
      verifyShuffleProof sha isTs p =
        ⟨false, some TIMESTAMP_ERR, true, false, false⟩) := by
  constructor
  · intro h
    unfold verifyShuffleProof
    rw [if_neg h]
  · intro h1 h2
    unfold verifyShuffleProof
    rw [if_pos h1, h2]
    simp

/-- C8: verifying a freshly generated proof succeeds with all three detail
flags true, and corrupting the seed hash, the timestamp, or the version of
a well-formed proof each yields `valid = false` with the matching detail
flag `false` and the error message of the first failing check. -/
theorem c8_proof_self_consistency (sha : HashFn) (isTs : String → Bool)
    (rh now s : String) (p : ShuffleProof) :
    (validSeedFormat s = true → isTs now = true →
      (generateShuffleProof sha rh now (some s)).map
          (verifyShuffleProof sha isTs) =
        Except.ok ⟨true, none, true, true, true⟩) ∧
    (hashSeedStr sha p.seed ≠ p.seedHash →
      verifyShuffleProof sha isTs p =
        ⟨false, some SEED_HASH_ERR, false, false, false⟩) ∧
    (hashSeedStr sha p.seed = p.seedHash → isTs p.timestamp = false →
      verifyShuffleProof sha isTs p =
        ⟨false, some TIMESTAMP_ERR, true, false, false⟩) ∧
    (hashSeedStr sha p.seed = p.seedHash → isTs p.timestamp = true →
      p.version ≠ ALGORITHM_VERSION →
      verifyShuffleProof sha isTs p =
        ⟨false, some (versionErr p.version), true, true, false⟩) := by
  refine ⟨?_, ?_, ?_, ?_⟩
  · intro hv ht
    have hne : s.length ≠ 0 := by
      rw [validSeedFormat_length hv]
      omega
    simp only [generateShuffleProof, generateSeed, if_pos hne, hv, if_true,
      Except.map]
    simp [verifyShuffleProof, ht]
  · intro h
    unfold verifyShuffleProof
    rw [if_neg h]
  · intro h1 h2
    unfold verifyShuffleProof
    rw [if_pos h1, h2]
    simp
  · intro h1 h2 h3
    unfold verifyShuffleProof
    rw [if_pos h1, h2, if_neg h3]
    simp

/-- C1 (code bug): with an admissible digest whose first 32-bit word is
`0xffffffff`, `seededShuffle` of the two-element deck `[0, 1]` under a
valid seed computes `r = 1` and `j = i + 1 = 2` on its first iteration,
writes past the end of the working array, and returns the three-element
array `[0, undefined, 1]` — not a permutation of the input. -/
theorem c1_permutation_fails_at_max_word :
    validSeedFormat seedA = true ∧
    seededShuffle shaFF ([0, 1] : List Int) seedA =
      Except.ok [some 0, none, some 1] ∧
    ([some (0 : Int), none, some 1] : JsArr Int).length = 3 ∧
    ([0, 1] : List Int).length = 2 ∧
    ¬ List.Perm ([some (0 : Int), none, some 1] : JsArr Int)
        (([0, 1] : List Int).map some) := by decide

/-- C4 (code bug): the draw value is `view[0] / 0xffffffff`, which reaches
`1` (outside the claimed `[0,1)`) when the first digest word is
`0xffffffff`; the swap index then computed at loop index `i = 1` is
`j = 2 = i + 1 > i`. -/
theorem c4_draw_value_reaches_one :
    seededRandomVal shaFF seedA 0 = 1 ∧
    ¬ seededRandomVal shaFF seedA 0 < 1 ∧
    drawWord shaFF seedA 0 * (1 + 1) / UINT32_MAX = 1 + 1 := by
  refine ⟨?_, ?_, by decide⟩
  · unfold seededRandomVal
    rw [show drawWord shaFF seedA 0 = 4294967295 from by decide]
    norm_num [UINT32_MAX]
  · rw [show seededRandomVal shaFF seedA 0 = 1 from ?_]
    · exact lt_irrefl 1
    · unfold seededRandomVal
      rw [show drawWord shaFF seedA 0 = 4294967295 from by decide]
      norm_num [UINT32_MAX]

/-- C5 (counterexample): `"not-hex"` fails the seed grammar, yet
`hashSeed` raises nothing: it resolves with the ordinary digest of the
invalid text (here, under the all-zero digest primitive, 64 `'0'`
characters). -/
theorem c5_counterexample_hashSeed_no_validation :
    validSeedFormat "not-hex" = false ∧
    hashSeed shaZero "not-hex" = Except.ok
      "0000000000000000000000000000000000000000000000000000000000000000" := by
  decide

set_option maxRecDepth 100000 in
/-- C7 (counterexample): under the real SHA-256 digest, the uppercase seed
`seedBU` (64 `'B'`s) is accepted by the grammar but produces a different
permutation of `[0, 1]` than its lowercase form `seedB`: the source hashes
the seed text exactly as passed. -/
theorem c7_counterexample_case_sensitive :
    strLower seedBU = seedB ∧
    validSeedFormat seedBU = true ∧
    seededShuffle sha256str ([0, 1] : List Int) seedBU =
      Except.ok [some 0, some 1] ∧
    seededShuffle sha256str ([0, 1] : List Int) (strLower seedBU) =
      Except.ok [some 1, some 0] ∧
    seededShuffle sha256str ([0, 1] : List Int) seedBU ≠
      seededShuffle sha256str ([0, 1] : List Int) (strLower seedBU) := by
  have h3 : seededShuffle sha256str ([0, 1] : List Int) seedBU =
      Except.ok [some 0, some 1] := by decide
  have h4 : seededShuffle sha256str ([0, 1] : List Int) (strLower seedBU) =
      Except.ok [some 1, some 0] := by decide
  refine ⟨by decide, by decide, h3, h4, ?_⟩
  rw [h3, h4]
  simp

set_option maxRecDepth 100000 in
/-- NIST FIPS 180-4 test vector: `SHA-256("abc")`. -/
theorem sha256_vector_abc :
    sha256str "abc" =
      [186, 120, 22, 191, 143, 1, 207, 234, 65, 65, 64, 222, 93, 174, 34, 35,
       176, 3, 97, 163, 150, 23, 122, 156, 180, 16, 255, 97, 242, 0, 21, 173] := by
  decide

set_option maxRecDepth 100000 in
/-- NIST FIPS 180-4 test vector: `SHA-256("")`. -/
theorem sha256_vector_empty :
    sha256str "" =
      [227, 176, 196, 66, 152, 252, 28, 20, 154, 251, 244, 200, 153, 111, 185, 36,
       39, 174, 65, 228, 100, 155, 147, 76, 164, 149, 153, 27, 120, 82, 184, 85] := by
  decide

/-!
## Witnesses
-/

/-- Witness for C2 at a concrete run: the all-zero digest shuffles `[0, 1]`
to `[1, 0]` under `seedA`, and verification accepts it. -/
theorem c2_verification_roundtrip_witness :
    verifyShuffleWithSeed shaZero ([0, 1] : List Int) [some 1, some 0] seedA =
      true :=
  c2_verification_roundtrip shaZero [0, 1] seedA [some 1, some 0] (by decide)

/-- Witness for the amended C5 at the claim's own example `"short"`. -/
theorem c5_format_errors_amended_witness :
    validSeedFormat "short" = false ∧
    generateSeed "r" (some "short") = Except.error INVALID_SEED_MSG ∧
    seededShuffle shaZero ([0] : List Int) "short" =
      Except.error INVALID_SEED_MSG ∧
    hashSeed shaZero "short" = Except.ok (hashSeedStr shaZero "short") := by
  have h := c5_format_errors_amended shaZero "r" Int [0] "short" (by decide)
  exact ⟨by decide, h.1 (by decide), h.2.1, h.2.2⟩

/-- Witness for C6 at a concrete invalid seed. -/
theorem c6_verify_never_throws_witness :
    verifyShuffleWithSeed shaZero ([0] : List Int) [] "bad" = false :=
  (c6_verify_never_throws Int shaZero [0] [] "bad").1 (by decide)

/-- Witness for the amended C7: under a case-oblivious digest (the
constant all-zero one) the uppercase seed does shuffle like its lowercase
form. -/
theorem c7_shuffle_depends_on_hashed_text_witness :
    seededShuffle shaZero ([0, 1] : List Int) seedBU =
      seededShuffle shaZero [0, 1] (strLower seedBU) :=
  c7_shuffle_depends_on_hashed_text shaZero [0, 1] seedBU (by decide)
    (by decide) (fun _ _ => rfl)

/-- Witness for C8 at concrete proofs: a generated proof verifies as fully
valid, and each of the three corruptions is reported as the claim states. -/
theorem c8_proof_self_consistency_witness :
    (generateShuffleProof shaZero "r" "t0" (some seedA)).map
        (verifyShuffleProof shaZero tsAlways) =
      Except.ok ⟨true, none, true, true, true⟩ ∧
    verifyShuffleProof shaZero tsAlways ⟨seedA, "bad", "t0", ALGORITHM_VERSION⟩ =
      ⟨false, some SEED_HASH_ERR, false, false, false⟩ ∧
    verifyShuffleProof shaZero tsNever
        ⟨seedA, hashSeedStr shaZero seedA, "t0", ALGORITHM_VERSION⟩ =
      ⟨false, some TIMESTAMP_ERR, true, false, false⟩ ∧
    verifyShuffleProof shaZero tsAlways
        ⟨seedA, hashSeedStr shaZero seedA, "t0", "PF-VL-2.0-A"⟩ =
      ⟨false, some (versionErr "PF-VL-2.0-A"), true, true, false⟩ := by
  refine ⟨(c8_proof_self_consistency shaZero tsAlways "r" "t0" seedA
      ⟨"", "", "", ""⟩).1 (by decide) rfl,
    (c8_proof_self_consistency shaZero tsAlways "r" "t0" seedA
      ⟨seedA, "bad", "t0", ALGORITHM_VERSION⟩).2.1 (by decide),
    (c8_proof_self_consistency shaZero tsNever "r" "t0" seedA
      ⟨seedA, hashSeedStr shaZero seedA, "t0", ALGORITHM_VERSION⟩).2.2.1 rfl rfl,
    (c8_proof_self_consistency shaZero tsAlways "r" "t0" seedA
      ⟨seedA, hashSeedStr shaZero seedA, "t0", "PF-VL-2.0-A"⟩).2.2.2 rfl rfl
      (by decide)⟩

/-- Witness for C9 at concrete runs of both entry points. -/
theorem c9_non_mutation_witness :
    ((([5, 7] : List Int), ([some 7, some 5] : JsArr Int)).1 = [5, 7] ∧
      seededShuffle shaZero ([5, 7] : List Int) seedA =
        Except.ok (([5, 7] : List Int), ([some 7, some 5] : JsArr Int)).2) ∧
    ((([10, 20] : List Int), ([some 20, some 10] : JsArr Int)).1 = [10, 20] ∧
      shuffleCardsWithSeed shaZero ([10, 20] : List Int) seedA =
        Except.ok (([10, 20] : List Int), ([some 20, some 10] : JsArr Int)).2) :=
  ⟨(c9_non_mutation Int shaZero seedA).1 [5, 7]
      ([5, 7], [some 7, some 5]) (by decide),
   (c9_non_mutation Int shaZero seedA).2 [10, 20]
      ([10, 20], [some 20, some 10]) (by decide)⟩

/-- Witness for C10: a proof whose timestamp parses and whose version is
the supported literal, but whose seed hash is wrong, is reported with all
three flags false. -/
theorem c10_first_failure_short_circuit_witness :
    verifyShuffleProof shaZero tsAlways
        ⟨seedA, "bad", "ts-ok", ALGORITHM_VERSION⟩ =
      ⟨false, some SEED_HASH_ERR, false, false, false⟩ :=
  (c10_first_failure_short_circuit shaZero tsAlways
    ⟨seedA, "bad", "ts-ok", ALGORITHM_VERSION⟩).1 (by decide)

end BlackjackPF
